import Mathlib

/-!
Verification of the spectral-tools module `lblTools.py`: the bracketed
log-space pressure interpolator `interP`, the binary panel decoder
`readTape12` (with its inner `readLBLPanel` loop), the reflectance-file
writer `writeReflectance`, and the multi-pass run orchestrator
`LblObject.run`.

Modelling conventions used throughout this development:

* Machine floats are modelled by an arbitrary linear ordered field `K`
  (theorems are stated over `K` or instantiated at `ℚ` / `ℝ`); float
  arithmetic is taken to be exact.
* The library functions `math.log`, `np.exp` are modelled as function
  parameters (`lg`, `expf`) since they are opaque float routines; concrete
  theorems instantiate them with `Real.log` / `Real.exp`.
* Python exceptions are modelled with `Except String`; the error string
  names the Python exception class raised at the corresponding point.
* Results of Python `map(...)` are modelled as the eager lists the
  surrounding Python-2-heritage code and the spec assume (under literal
  Python 3 they are one-shot iterators, and the literal module cannot
  reach the modelled lines anyway because the shadowing of `run` by the
  subprocess module makes every solver invocation raise first); the solver
  invocations themselves are the external collaborator of spec section 6,
  modelled as oracle inputs.
-/

namespace LblTools

variable {K : Type} [LinearOrderedField K]

/-- Bracket candidate accumulated by the neighbour scans of `interP`
(the Python lists `mmin` / `mmax`): the signed difference `gg`, the grid
value, and the grid index.  The Python sentinel lists `[-999999, p1]` and
`[999999, p1]` have only two elements; accessing the missing third element
raises `IndexError`, which is modelled by `idx = none`. -/
structure Cand (K : Type) where
  gg : K
  val : K
  idx : Option ℕ

/-- First scan of `interP` (source lines 56-62), upper candidate: walk the
source grid and keep the smallest strictly positive difference
`pin[k] - p1` (first index wins on ties, since the comparison is strict). -/
def scanMaxGo (p1 : K) : ℕ → List K → Cand K → Cand K
  | _, [], c => c
  | k, x :: xs, c =>
      scanMaxGo p1 (k + 1) xs
        (if x ≠ p1 ∧ 0 < x - p1 ∧ x - p1 < c.gg then ⟨x - p1, x, some k⟩ else c)

/-- First scan of `interP`, lower candidate: keep the negative difference
`pin[k] - p1` closest to zero (source lines 56-62, the `elif` branch). -/
def scanMinGo (p1 : K) : ℕ → List K → Cand K → Cand K
  | _, [], c => c
  | k, x :: xs, c =>
      scanMinGo p1 (k + 1) xs
        (if x ≠ p1 ∧ x - p1 < 0 ∧ c.gg < x - p1 then ⟨x - p1, x, some k⟩ else c)

/-- Re-search for the upper candidate when the first scan found none
(source lines 73-80): look for a second lower neighbour, excluding the
index already held by `mmin`.  Evaluating `k != mmin[2]` when `mmin` is
still the two-element sentinel raises `IndexError` in Python, modelled by
the `none` branch. -/
def rescanMaxGo (p1 : K) (minIdx : Option ℕ) : ℕ → List K → Cand K → Except String (Cand K)
  | _, [], c => Except.ok c
  | k, x :: xs, c =>
      if x = p1 then rescanMaxGo p1 minIdx (k + 1) xs c
      else
        match minIdx with
        | none => Except.error "IndexError"
        | some j =>
            rescanMaxGo p1 minIdx (k + 1) xs
              (if k ≠ j ∧ x - p1 < 0 ∧ c.gg < x - p1 then ⟨x - p1, x, some k⟩ else c)

/-- Unconditional second scan for the lower candidate (source lines
84-89), excluding the index held by `mmax`; evaluating `k != mmax[2]`
when `mmax` is the two-element sentinel raises `IndexError`. -/
def rescanMinGo (p1 : K) (maxIdx : Option ℕ) : ℕ → List K → Cand K → Except String (Cand K)
  | _, [], c => Except.ok c
  | k, x :: xs, c =>
      if x = p1 then rescanMinGo p1 maxIdx (k + 1) xs c
      else
        match maxIdx with
        | none => Except.error "IndexError"
        | some j =>
            rescanMinGo p1 maxIdx (k + 1) xs
              (if k ≠ j ∧ 0 < x - p1 ∧ x - p1 < c.gg then ⟨x - p1, x, some k⟩ else c)

/-- Index of the first grid value equal to the query (the `p1 == pin[k]`
short-circuit of the scan loop, source lines 65-69). -/
def findEqIdx (p1 : K) : ℕ → List K → Option ℕ
  | _, [] => none
  | k, x :: xs => if x = p1 then some k else findEqIdx p1 (k + 1) xs

/-- Log-space bracket interpolation for one query pressure with no exact
match (source lines 73-95): select the two candidates, then compute
`z4 + z1 / z2 * z3`.  Index errors on the sentinel candidates and on `vin`
are sequenced as Python evaluates them (line 93 evaluates `vin[mmax[2]]`
before `vin[mmin[2]]`); a zero log-difference raises `ZeroDivisionError`
at line 95. -/
def rawInterp (lg : K → K) (p1 : K) (pin vin : List K) : Except String K :=
  let mmax0 := scanMaxGo p1 0 pin ⟨999999, p1, none⟩
  let mmin0 := scanMinGo p1 0 pin ⟨-999999, p1, none⟩
  match (if mmax0.val = p1 then rescanMaxGo p1 mmin0.idx 0 pin ⟨-999999, p1, none⟩
         else Except.ok mmax0) with
  | Except.error e => Except.error e
  | Except.ok mmax =>
    let mmin1 := if mmin0.val = p1 then (⟨999999, p1, none⟩ : Cand K) else mmin0
    match rescanMinGo p1 mmax.idx 0 pin mmin1 with
    | Except.error e => Except.error e
    | Except.ok mmin =>
      match mmax.idx with
      | none => Except.error "IndexError"
      | some kmax =>
        match vin.get? kmax with
        | none => Except.error "IndexError"
        | some vmax =>
          match mmin.idx with
          | none => Except.error "IndexError"
          | some kmin =>
            match vin.get? kmin with
            | none => Except.error "IndexError"
            | some vmin =>
              if lg mmax.val - lg mmin.val = 0 then Except.error "ZeroDivisionError"
              else
                Except.ok (vmin + (lg p1 - lg mmin.val) / (lg mmax.val - lg mmin.val)
                  * (vmax - vmin))

/-- Relative-humidity clamp of `interP` (source line 97): applied only to
the interpolated value, gated by the `rh` flag (`rh is not None`). -/
def clampRH (rh : Bool) (p1 hh : K) : K :=
  if rh ∧ p1 < 100 ∧ (0.003 : K) < hh then (0.001 : K) else hh

/-- One query pressure of `interP`: exact grid matches return `vin[k]`
directly (no interpolation, no clamp); otherwise the bracketed log-space
interpolation runs and the relative-humidity clamp is applied. -/
def interPStep (lg : K → K) (pin vin : List K) (rh : Bool) (p1 : K) : Except String K :=
  match findEqIdx p1 0 pin with
  | some k =>
      match vin.get? k with
      | some v => Except.ok v
      | none => Except.error "IndexError"
  | none => (rawInterp lg p1 pin vin).map (clampRH rh p1)

/-- Model of `interP(p, pin, vin, rh=...)` (source lines 38-103): queries
are processed in order and an exception raised for any query aborts the
whole call (the Python exception propagates out of `interP`).  The float
`math.log` is the function parameter `lg`; `rh : Bool` models
`rh is not None`. -/
def interP (lg : K → K) (p pin vin : List K) (rh : Bool) : Except String (List K) :=
  match p with
  | [] => Except.ok []
  | p1 :: ps =>
      match interPStep lg pin vin rh p1 with
      | Except.error e => Except.error e
      | Except.ok v =>
          match interP lg ps pin vin rh with
          | Except.error e => Except.error e
          | Except.ok vs => Except.ok (v :: vs)

/-- Decidable equality for the `Except String` results of the model. -/
instance instDecEqExcept {α : Type} [DecidableEq α] : DecidableEq (Except String α) :=
  fun a b =>
    match a, b with
    | Except.ok x, Except.ok y =>
        if h : x = y then isTrue (by rw [h]) else isFalse (fun hc => h (Except.ok.inj hc))
    | Except.error x, Except.error y =>
        if h : x = y then isTrue (by rw [h]) else isFalse (fun hc => h (Except.error.inj hc))
    | Except.ok _, Except.error _ => isFalse (fun hc => Except.noConfusion hc)
    | Except.error _, Except.ok _ => isFalse (fun hc => Except.noConfusion hc)

theorem scanMaxGo_nil (p1 : K) (k : ℕ) (c : Cand K) : scanMaxGo p1 k [] c = c := rfl

theorem scanMaxGo_cons_pos {p1 x : K} {c : Cand K} (k : ℕ) (xs : List K)
    (h : x ≠ p1 ∧ 0 < x - p1 ∧ x - p1 < c.gg) :
    scanMaxGo p1 k (x :: xs) c = scanMaxGo p1 (k + 1) xs ⟨x - p1, x, some k⟩ := by
  simp only [scanMaxGo, if_pos h]

theorem scanMaxGo_cons_neg {p1 x : K} {c : Cand K} (k : ℕ) (xs : List K)
    (h : ¬(x ≠ p1 ∧ 0 < x - p1 ∧ x - p1 < c.gg)) :
    scanMaxGo p1 k (x :: xs) c = scanMaxGo p1 (k + 1) xs c := by
  simp only [scanMaxGo, if_neg h]

theorem scanMinGo_nil (p1 : K) (k : ℕ) (c : Cand K) : scanMinGo p1 k [] c = c := rfl

theorem scanMinGo_cons_neg {p1 x : K} {c : Cand K} (k : ℕ) (xs : List K)
    (h : ¬(x ≠ p1 ∧ x - p1 < 0 ∧ c.gg < x - p1)) :
    scanMinGo p1 k (x :: xs) c = scanMinGo p1 (k + 1) xs c := by
  simp only [scanMinGo, if_neg h]

theorem rescanMinGo_nil (p1 : K) (mi : Option ℕ) (k : ℕ) (c : Cand K) :
    rescanMinGo p1 mi k [] c = Except.ok c := rfl

theorem rescanMinGo_cons_pos {p1 x : K} {c : Cand K} (j k : ℕ) (xs : List K)
    (hx : x ≠ p1) (h : k ≠ j ∧ 0 < x - p1 ∧ x - p1 < c.gg) :
    rescanMinGo p1 (some j) k (x :: xs) c =
      rescanMinGo p1 (some j) (k + 1) xs ⟨x - p1, x, some k⟩ := by
  simp only [rescanMinGo, if_neg (fun hc => hx hc), if_pos h]

theorem rescanMinGo_cons_neg {p1 x : K} {c : Cand K} (j k : ℕ) (xs : List K)
    (hx : x ≠ p1) (h : ¬(k ≠ j ∧ 0 < x - p1 ∧ x - p1 < c.gg)) :
    rescanMinGo p1 (some j) k (x :: xs) c = rescanMinGo p1 (some j) (k + 1) xs c := by
  simp only [rescanMinGo, if_neg (fun hc => hx hc), if_neg h]

theorem findEqIdx_cons_ne {p1 x : K} (k : ℕ) (xs : List K) (h : x ≠ p1) :
    findEqIdx p1 k (x :: xs) = findEqIdx p1 (k + 1) xs := by
  simp only [findEqIdx, if_neg (fun hc => h hc)]

/-- Helper: full computation of `interP` for a query strictly below a
two-point source grid.  The first scan selects `a` (nearest above) as the
upper candidate and finds no lower candidate; the unconditional second
scan (source lines 84-89) then selects `b` — the second-nearest point on
the same side, since index 0 is excluded — as the lower candidate, and the
log-space formula extrapolates through the pair. -/
theorem interP_below_pair (lg : K → K) (p a b va vb : K)
    (hpa : p < a) (hab : a < b) (hb : b - p < 999999) (hlg : lg a - lg b ≠ 0) :
    interP lg [p] [a, b] [va, vb] false =
      Except.ok [vb + (lg p - lg b) / (lg a - lg b) * (va - vb)] := by
  have hap : a ≠ p := ne_of_gt hpa
  have hbp : b ≠ p := ne_of_gt (hpa.trans hab)
  have h0a : 0 < a - p := by linarith
  have h0b : 0 < b - p := by linarith
  have hlt : a - p < (999999 : K) := by linarith
  have e1 : scanMaxGo p 0 [a, b] ⟨999999, p, none⟩ = ⟨a - p, a, some 0⟩ := by
    rw [scanMaxGo_cons_pos 0 [b] ⟨hap, h0a, hlt⟩, scanMaxGo_cons_neg 1 [], scanMaxGo_nil]
    rintro ⟨-, -, h⟩
    simp only at h
    linarith
  have e2 : scanMinGo p 0 [a, b] ⟨-999999, p, none⟩ = ⟨-999999, p, none⟩ := by
    rw [scanMinGo_cons_neg 0 [b], scanMinGo_cons_neg 1 [], scanMinGo_nil]
    · rintro ⟨-, h, -⟩; linarith
    · rintro ⟨-, h, -⟩; linarith
  have e3 : rescanMinGo p (some 0) 0 [a, b] ⟨999999, p, none⟩ =
      Except.ok ⟨b - p, b, some 1⟩ := by
    rw [rescanMinGo_cons_neg 0 0 [b] hap, rescanMinGo_cons_pos 0 1 [] hbp
      ⟨one_ne_zero, h0b, hb⟩, rescanMinGo_nil]
    rintro ⟨h, -⟩
    exact h rfl
  have efind : findEqIdx p 0 [a, b] = none := by
    rw [findEqIdx_cons_ne 0 [b] hap, findEqIdx_cons_ne 1 [] hbp]
    rfl
  simp only [interP, interPStep, efind]
  simp only [rawInterp, e1, e2]
  rw [if_neg (fun h : a = p => hap h)]
  simp only [eq_self_iff_true, if_true, e3, List.get?, Except.map, clampRH,
    Bool.false_eq_true, false_and, if_false, if_neg hlg]

/-- CLAIM C4 (amended) — for a query pressure strictly below both points of
a two-point source grid, `interP` does NOT clamp to the nearest neighbour:
the upper candidate is the nearest point `a` and, because the second
lower-candidate search excludes the index already chosen, the lower
candidate becomes the second-nearest point `b` on the same side, so the
returned value is the log-space extrapolation
`vin_b + (lg p - lg b) / (lg a - lg b) * (vin_a - vin_b)`. -/
theorem interP_outside_two_point_extrapolation (lg : K → K) (p a b va vb : K)
    (hpa : p < a) (hab : a < b) (hb : b - p < 999999) (hlg : lg a - lg b ≠ 0) :
    interP lg [p] [a, b] [va, vb] false =
      Except.ok [vb + (lg p - lg b) / (lg a - lg b) * (va - vb)] :=
  interP_below_pair lg p a b va vb hpa hab hb hlg

/-- Witness for `interP_outside_two_point_extrapolation` at `lg = id` over
`ℚ`: query 3 below the grid `[10, 100]` with values `[1, 2]` returns
`2 + (3 - 100) / (10 - 100) * (1 - 2) = 83/90`. -/
theorem interP_outside_two_point_extrapolation_witness :
    interP (fun x => x) [(3 : ℚ)] [10, 100] [1, 2] false = Except.ok [83 / 90] := by
  have h := interP_outside_two_point_extrapolation (fun x : ℚ => x) 3 10 100 1 2
    (by norm_num) (by norm_num) (by norm_num) (by norm_num)
  rw [h]
  norm_num

/-- CLAIM C4 (counterexample) — with the real `math.log`, a query pressure
3 strictly below the source grid `[10, 100]` with values `[1, 2]` does not
return the nearest single-sided neighbour value `1`: the code extrapolates
through the two nearest same-side points instead. -/
theorem interP_outside_not_nearest :
    interP Real.log [(3 : ℝ)] [10, 100] [1, 2] false ≠ Except.ok [1] := by
  have hlog : Real.log 10 < Real.log 100 := Real.log_lt_log (by norm_num) (by norm_num)
  have hlog3 : Real.log 3 < Real.log 10 := Real.log_lt_log (by norm_num) (by norm_num)
  have h := interP_below_pair Real.log (3 : ℝ) 10 100 1 2
    (by norm_num) (by norm_num) (by norm_num) (by intro h; apply absurd hlog; rw [sub_eq_zero] at h; rw [h]; exact lt_irrefl _)
  rw [h]
  intro hc
  have hv : (2 : ℝ) + (Real.log 3 - Real.log 100) / (Real.log 10 - Real.log 100) * (1 - 2) = 1 := by
    have := Except.ok.inj hc
    exact (List.cons.inj this).1
  have hden : Real.log 10 - Real.log 100 ≠ 0 := sub_ne_zero_of_ne (ne_of_lt hlog)
  have hq : (Real.log 3 - Real.log 100) / (Real.log 10 - Real.log 100) = 1 := by linarith
  rw [div_eq_one_iff_eq hden] at hq
  have : Real.log 3 = Real.log 10 := by linarith
  linarith

/-- CLAIM C5 — on a single-point source grid `pin = [100]`, `vin = [5]`,
the query `p = 50` makes `interP` raise `IndexError` (for any log function
and either state of the relative-humidity flag): the lower-candidate
sentinel list never received a third (index) element, and line 93 of the
source evaluates `vin[mmin[2]]`.  The claim (and spec §7) instead require
the single value 5 to be returned without raising. -/
theorem interP_single_point_raises (lg : K → K) (rh : Bool) :
    interP lg [(50 : K)] [100] [5] rh = Except.error "IndexError" := by
  norm_num [interP, interPStep, findEqIdx, rawInterp, scanMaxGo, scanMinGo,
    rescanMaxGo, rescanMinGo, clampRH, Except.map]

/-- CLAIM C3 — the relative-humidity clamp of `interP`: for any query `p1`
with no exact grid match whose raw log-space interpolated value is `hh`,
if the flag is set, `p1 < 100` and `hh > 0.003` the returned value is
exactly `0.001`; with the flag unset the unclamped `hh` is returned. -/
theorem interP_rh_clamp (lg : K → K) (pin vin : List K) (p1 hh : K)
    (hfind : findEqIdx p1 0 pin = none)
    (hraw : rawInterp lg p1 pin vin = Except.ok hh) :
    (p1 < 100 → (0.003 : K) < hh →
        interP lg [p1] pin vin true = Except.ok [(0.001 : K)]) ∧
    interP lg [p1] pin vin false = Except.ok [hh] := by
  constructor
  · intro hp hhh
    simp only [interP, interPStep, hfind, hraw, Except.map, clampRH]
    rw [if_pos ⟨trivial, hp, hhh⟩]
  · simp only [interP, interPStep, hfind, hraw, Except.map, clampRH,
      Bool.false_eq_true, false_and, if_false]

/-- Witness for `interP_rh_clamp` over `ℚ` with `lg = id`: query 50 on grid
`[25, 100]` with constant values `0.004` interpolates to `0.004`; with the
flag set the result is clamped to `0.001`, without it the raw `0.004` is
returned. -/
theorem interP_rh_clamp_witness :
    interP (fun x => x) [(50 : ℚ)] [25, 100] [1/250, 1/250] true = Except.ok [1/1000] ∧
    interP (fun x => x) [(50 : ℚ)] [25, 100] [1/250, 1/250] false = Except.ok [1/250] := by
  have hfind : findEqIdx (50 : ℚ) 0 [25, 100] = none := by norm_num [findEqIdx]
  have hraw : rawInterp (fun x : ℚ => x) 50 [25, 100] [1/250, 1/250] = Except.ok (1/250) := by
    norm_num [rawInterp, scanMaxGo, scanMinGo, rescanMaxGo, rescanMinGo]
  have h := interP_rh_clamp (fun x : ℚ => x) [25, 100] [1/250, 1/250] 50 (1/250) hfind hraw
  refine ⟨?_, h.2⟩
  have := h.1 (by norm_num) (by norm_num)
  rw [this]
  norm_num

/-- Modelled from the spec: the sequential binary record stream (§4.1
RecordStream / §6) underlying the panel files.  The `FortranFile` module
that implements it is not part of `src/`, so records are modelled as
tagged values instead of raw byte blocks: `header` is a panel-header
record carrying its byte length and the decoded fields `(v1, v2, dv, n)`;
`vec` is a data-vector record written at single (`false`) or double
(`true`) float precision, whose byte length is `4` (resp. `8`) bytes per
element; `corrupt` is a truncated or frame-damaged record on which any
vector read raises; `raw` is an uninterpreted record (such as the file
header) of the given byte length.  Reinterpreting the raw bytes of one
record kind as another (which Python `struct` would permit) is not
modelled, and no input used in a theorem below depends on it. -/
inductive Rec (K : Type) where
  | header (len : ℕ) (v1 v2 dv : K) (n : ℤ)
  | vec (dbl : Bool) (vals : List K)
  | corrupt (len : ℕ)
  | raw (len : ℕ)
deriving DecidableEq

/-- Byte length of a record, as reported by `len(buff)` after
`getRecord`. -/
def recLen : Rec K → ℕ
  | Rec.header len _ _ _ _ => len
  | Rec.vec true vals => 8 * vals.length
  | Rec.vec false vals => 4 * vals.length
  | Rec.corrupt len => len
  | Rec.raw len => len

/-- The byte size `struct.calcsize` of the panel-header format
`'dddq'` (`double=True`) or `'ddd' + iFormat` with `iFormat='q'`
(`double=False` on a platform where `calcsize('l') == 8`, the 64-bit
convention assumed throughout): three 8-byte floats plus an 8-byte
integer. -/
def headerSize : ℕ := 32

/-- Decode of `struct.unpack(lfmt, buff)` on a record already known to
have the header byte size: yields the header fields.  A 32-byte record of
another kind would be reinterpreted bitwise by Python; this unmodelled
case returns `none` (decoding stops) and is avoided by every concrete
stream below. -/
def parseHeader : Rec K → Option (K × K × K × ℤ)
  | Rec.header _ v1 v2 dv n => some (v1, v2, dv, n)
  | _ => none

/-- Modelled from the spec: `FortranFile.readFloatVector` /
`readDoubleVector` (§4.1, §6 data-vector records) — pop the next record
and interpret it as a float vector of the configured precision.  The read
raises (returns `none`) at end of stream, on a corrupt/truncated record,
or on a record of another kind (byte reinterpretation not modelled). -/
def readVec (dbl : Bool) : List (Rec K) → Option (List K × List (Rec K))
  | Rec.vec d vals :: rest => if d = dbl then some (vals, rest) else none
  | _ => none

/-- Replace the `i`-th entry of a list of accumulators by `f` applied to
it (the Python `outParam[i] += data`). -/
def modAt {α : Type} (i : ℕ) (f : α → α) : List α → List α
  | [] => []
  | x :: xs =>
      match i with
      | 0 => f x :: xs
      | j + 1 => x :: modAt j f xs

/-- The inner `for i in range(output_variables_per_panel)` loop of
`readLBLPanel` (source lines 358-362): read `n` data vectors, extending
the `i`-th accumulator after each successful read.  Returns the updated
accumulators, and `none` in the second component when a read raised
(earlier accumulators keep the data already appended, as in Python);
on success it returns the length of the last vector read (the Python
local `data`, which leaks across panels) and the remaining stream. -/
def readVars (dbl : Bool) : ℕ → ℕ → List (Rec K) → List (List K) → Option ℕ →
    List (List K) × Option (Option ℕ × List (Rec K))
  | 0, _, s, accP, lastLen => (accP, some (lastLen, s))
  | n + 1, i, s, accP, _ =>
      match readVec dbl s with
      | none => (accP, none)
      | some (vals, s') =>
          readVars dbl n (i + 1) s' (modAt i (fun l => l ++ vals) accP) (some vals.length)

theorem readVec_length {dbl : Bool} {s : List (Rec K)} {v : List K} {s' : List (Rec K)}
    (h : readVec dbl s = some (v, s')) : s'.length < s.length := by
  match s with
  | [] => simp [readVec] at h
  | Rec.header l a b c n :: rest => simp [readVec] at h
  | Rec.vec d vals :: rest =>
      simp only [readVec] at h
      split at h
      · cases h; simp
      · cases h
  | Rec.corrupt l :: rest => simp [readVec] at h
  | Rec.raw l :: rest => simp [readVec] at h

theorem readVars_length {dbl : Bool} (n : ℕ) :
    ∀ (i : ℕ) (s : List (Rec K)) (accP : List (List K)) (lastLen : Option ℕ)
      (aP : List (List K)) (l : Option ℕ) (s' : List (Rec K)),
      readVars dbl n i s accP lastLen = (aP, some (l, s')) → s'.length ≤ s.length := by
  induction n with
  | zero =>
      intro i s accP lastLen aP l s' h
      simp only [readVars, Prod.mk.injEq, Option.some.injEq] at h
      obtain ⟨-, -, h2⟩ := h
      exact h2 ▸ le_rfl
  | succ n ih =>
      intro i s accP lastLen aP l s' h
      cases hv : readVec (K := K) dbl s with
      | none => simp [readVars, hv] at h
      | some p =>
          obtain ⟨vals, s2⟩ := p
          simp only [readVars, hv] at h
          exact le_of_lt (lt_of_le_of_lt (ih _ _ _ _ _ _ _ h) (readVec_length hv))

/-- The `while OK` loop of `readLBLPanel` (source lines 347-377): skip
records whose byte length differs from the panel-header size; on a
header-shaped record, decode the header and read the configured number of
data vectors; any read failure (truncated record, end of stream) returns
the arrays accumulated so far; after a successful panel, append the
derived wavenumbers `v1 + x*dv` for `x` below the length of the last
vector read.  If no vector was ever read (`data` unbound), evaluating
`len(data)` raises `NameError`, which the `except` clause also turns into
returning the accumulators. -/
def panelLoop (dbl : Bool) (nVar : ℕ) (s : List (Rec K)) (accWN : List K)
    (accP : List (List K)) (lastLen : Option ℕ) : List K × List (List K) :=
  match s with
  | [] => (accWN, accP)
  | r :: rest =>
      if recLen r ≠ headerSize then panelLoop dbl nVar rest accWN accP lastLen
      else
        match parseHeader r with
        | none => (accWN, accP)
        | some (v1, _, dv, _) =>
            match h : readVars dbl nVar 0 rest accP lastLen with
            | (accP', none) => (accWN, accP')
            | (accP', some (none, _)) => (accWN, accP')
            | (accP', some (some len, rest')) =>
                panelLoop dbl nVar rest'
                  (accWN ++ (List.range len).map (fun x : ℕ => v1 + (x : K) * dv))
                  accP' (some len)
termination_by s.length
decreasing_by
  · simp only [List.length_cons]; omega
  · have hle := readVars_length nVar 0 rest accP lastLen accP' (some len) rest' h
    simp only [List.length_cons]; omega

/-- Model of `readTape12(fileName, double, output_variables_per_panel)`
(source lines 286-399): read (and discard) the file-header record, then
run the panel loop with empty accumulators. -/
def readTape12 (dbl : Bool) (nVar : ℕ) (file : List (Rec K)) : List K × List (List K) :=
  panelLoop dbl nVar file.tail [] (List.replicate nVar []) none

theorem panelLoop_nil (dbl : Bool) (nVar : ℕ) (aW : List K) (aP : List (List K))
    (lL : Option ℕ) : panelLoop dbl nVar [] aW aP lL = (aW, aP) := by
  rw [panelLoop.eq_def]

theorem panelLoop_skip (dbl : Bool) (nVar : ℕ) {r : Rec K} (rest : List (Rec K))
    (aW : List K) (aP : List (List K)) (lL : Option ℕ) (h : recLen r ≠ headerSize) :
    panelLoop dbl nVar (r :: rest) aW aP lL = panelLoop dbl nVar rest aW aP lL := by
  conv_lhs => rw [panelLoop.eq_def]
  simp only [if_pos h]

theorem panelLoop_panel1 (dbl : Bool) (v1 v2 dv : K) (n : ℤ) (vals : List K)
    (rest : List (Rec K)) (aW a0 : List K) (lL : Option ℕ) :
    panelLoop dbl 1 (Rec.header headerSize v1 v2 dv n :: Rec.vec dbl vals :: rest) aW [a0] lL =
      panelLoop dbl 1 rest (aW ++ (List.range vals.length).map (fun x : ℕ => v1 + (x : K) * dv))
        [a0 ++ vals] (some vals.length) := by
  conv_lhs => rw [panelLoop.eq_def]
  norm_num [recLen, headerSize, parseHeader]
  split
  all_goals simp_all [readVars, readVec, modAt]

theorem panelLoop_trunc1 (dbl : Bool) (v1 v2 dv : K) (n : ℤ) (rest : List (Rec K))
    (aW : List K) (aP : List (List K)) (lL : Option ℕ) (h : readVec dbl rest = none) :
    panelLoop dbl 1 (Rec.header headerSize v1 v2 dv n :: rest) aW aP lL = (aW, aP) := by
  conv_lhs => rw [panelLoop.eq_def]
  norm_num [recLen, headerSize, parseHeader]
  split
  · next accP2 heq =>
      simp only [readVars, h, Prod.mk.injEq] at heq
      rw [heq.1]
  · next accP2 s2 heq =>
      simp [readVars, h] at heq
  · next accP2 len2 rest2 heq =>
      simp [readVars, h] at heq

/-- One spectral panel, for the round-trip statements: wavenumber range
`(v1, v2, dv)` and the data vector. -/
structure Panel (K : Type) where
  v1 : K
  v2 : K
  dv : K
  vals : List K
deriving DecidableEq

/-- Modelled from the spec: the writer counterpart of the panel decoder
(§6 binary spectral file format, §8 panel round-trip) emitting panels at
the READER'S header format — a panel-header record of the header byte
size (three 8-byte floats `v1, v2, dv` plus one integer `pointCount` of
configured width), followed by one data-vector record at the configured
precision. -/
def encodePanel (dbl : Bool) (p : Panel K) : List (Rec K) :=
  [Rec.header headerSize p.v1 p.v2 p.dv (p.vals.length : ℤ), Rec.vec dbl p.vals]

/-- Wavenumbers the decoder derives for a panel: `v1 + x*dv` for `x`
below the data-vector length (source lines 365-366). -/
def panelWN (p : Panel K) : List K :=
  (List.range p.vals.length).map (fun x : ℕ => p.v1 + (x : K) * p.dv)

/-- The value of the leaked Python local `data` after decoding a list of
panels: the length of the last panel's vector, or the incoming value if
no panel was decoded. -/
def lastLenPs (ps : List (Panel K)) (l0 : Option ℕ) : Option ℕ :=
  match ps with
  | [] => l0
  | p :: ps => lastLenPs ps (some p.vals.length)

theorem lastLenPs_cons (p : Panel K) (ps : List (Panel K)) (l0 : Option ℕ) :
    lastLenPs (p :: ps) l0 = lastLenPs ps (some p.vals.length) := rfl

theorem panelLoop_encode (dbl : Bool) (ps : List (Panel K)) :
    ∀ (tail : List (Rec K)) (aW a0 : List K) (lL : Option ℕ),
      panelLoop dbl 1 (ps.bind (encodePanel dbl) ++ tail) aW [a0] lL =
        panelLoop dbl 1 tail (aW ++ ps.bind panelWN) [a0 ++ ps.bind Panel.vals]
          (lastLenPs ps lL) := by
  induction ps with
  | nil => intro tail aW a0 lL; simp [lastLenPs]
  | cons p ps ih =>
      intro tail aW a0 lL
      simp only [List.cons_bind, List.append_assoc]
      rw [show encodePanel dbl p ++ (ps.bind (encodePanel dbl) ++ tail) =
        Rec.header headerSize p.v1 p.v2 p.dv (p.vals.length : ℤ) :: Rec.vec dbl p.vals ::
          (ps.bind (encodePanel dbl) ++ tail) from rfl]
      rw [panelLoop_panel1, ih, lastLenPs_cons]
      simp [panelWN, List.append_assoc]

/-- Decoding the file-header record followed by encoded panels yields the
concatenated derived wavenumbers and the concatenated data vectors. -/
theorem readTape12_encode (dbl : Bool) (ps : List (Panel K)) :
    readTape12 dbl 1 (Rec.raw 1056 :: ps.bind (encodePanel dbl)) =
      (ps.bind panelWN, [ps.bind Panel.vals]) := by
  have h := panelLoop_encode dbl ps [] [] [] none
  rw [List.append_nil] at h
  simp only [readTape12, List.tail_cons, List.replicate]
  rw [h, panelLoop_nil]
  simp

/-- Decoding encoded panels followed by a panel header whose data record
is truncated or unreadable gives exactly the same result as decoding the
clean stream of the prior panels: the failure is absorbed and nothing in
the return value records it. -/
theorem readTape12_encode_trunc (dbl : Bool) (ps : List (Panel K)) (a b c : K) (n : ℤ)
    (m : ℕ) :
    readTape12 dbl 1 (Rec.raw 1056 ::
        (ps.bind (encodePanel dbl) ++ [Rec.header headerSize a b c n, Rec.corrupt m])) =
      readTape12 dbl 1 (Rec.raw 1056 :: ps.bind (encodePanel dbl)) := by
  have h := panelLoop_encode dbl ps [Rec.header headerSize a b c n, Rec.corrupt m] [] [] none
  have h2 := panelLoop_encode dbl ps [] [] [] none
  rw [List.append_nil] at h2
  simp only [readTape12, List.tail_cons, List.replicate]
  rw [h, h2, panelLoop_nil, panelLoop_trunc1]
  rfl

/-- CLAIM C2 (amended) — a stream that ends mid-panel (a panel header
followed by a truncated or unreadable data record) decodes, without
raising, to exactly the wavenumbers and parameter vectors of the prior
fully-read panels; but no truncation flag or expected panel count is
returned: the result is identical to decoding a clean stream holding only
the prior panels, so the truncation is not observable in the return
value. -/
theorem truncated_stream_yields_prior_panels (dbl : Bool) (ps : List (Panel K)) (a b c : K)
    (n : ℤ) (m : ℕ) :
    readTape12 dbl 1 (Rec.raw 1056 ::
        (ps.bind (encodePanel dbl) ++ [Rec.header headerSize a b c n, Rec.corrupt m])) =
      (ps.bind panelWN, [ps.bind Panel.vals]) ∧
    readTape12 dbl 1 (Rec.raw 1056 ::
        (ps.bind (encodePanel dbl) ++ [Rec.header headerSize a b c n, Rec.corrupt m])) =
      readTape12 dbl 1 (Rec.raw 1056 :: ps.bind (encodePanel dbl)) :=
  ⟨(readTape12_encode_trunc dbl ps a b c n m).trans (readTape12_encode dbl ps),
    readTape12_encode_trunc dbl ps a b c n m⟩

/-- Two complete demonstration panels over `ℚ`. -/
def demoPanels : List (Panel ℚ) := [⟨100, 101, 1, [5, 6]⟩, ⟨102, 103, 1, [7, 8]⟩]

/-- A clean binary stream: file header plus the two demonstration
panels. -/
def demoClean : List (Rec ℚ) := Rec.raw 1056 :: demoPanels.bind (encodePanel false)

/-- The same stream ending mid-panel: a third panel header is present but
its data record is truncated. -/
def demoTrunc : List (Rec ℚ) :=
  Rec.raw 1056 :: (demoPanels.bind (encodePanel false) ++
    [Rec.header headerSize 104 105 1 2, Rec.corrupt 12])

/-- CLAIM C2 (counterexample to observability) — decoding the truncated
stream returns the two prior panels and is EQUAL to decoding the clean
two-panel stream: the interface exposes no truncated flag and no
panel count versus expected, so the truncation claimed to be observable
is not observable to the caller. -/
theorem truncation_not_observable :
    readTape12 false 1 demoTrunc = readTape12 false 1 demoClean ∧
    readTape12 false 1 demoTrunc = ([100, 101, 102, 103], [[5, 6, 7, 8]]) := by
  have h1 := readTape12_encode_trunc false demoPanels 104 105 1 2 12
  have h2 := readTape12_encode false demoPanels
  constructor
  · exact h1
  · rw [show demoTrunc = Rec.raw 1056 :: (demoPanels.bind (encodePanel false) ++
      [Rec.header headerSize 104 105 1 2, Rec.corrupt 12]) from rfl, h1, h2]
    norm_num [demoPanels, panelWN, List.range_succ]

section Reflectance

variable [FloorRing K]

/-- Python `int(x)` on a float: truncation toward zero. -/
def pyInt (x : K) : ℤ := if x < 0 then ⌈x⌉ else ⌊x⌋

/-- Python 3 `round(x)` on a float: round half to even. -/
def pyRound (x : K) : ℤ :=
  if x - (⌊x⌋ : K) < 1 / 2 then ⌊x⌋
  else if (1 : K) / 2 < x - (⌊x⌋ : K) then ⌊x⌋ + 1
  else if 2 ∣ ⌊x⌋ then ⌊x⌋ else ⌊x⌋ + 1

/-- Quadratic surface reflectance `LblObject.genReflectance` (source
lines 1246-1247): `coeff[0] + coeff[1]*wn + coeff[2]*wn**2`, with the
three coefficients passed individually. -/
def genReflectance (wn c0 c1 c2 : K) : K := c0 + c1 * wn + c2 * wn ^ 2

/-- The start indices produced by `range(0, nWN, maxBlock)` in
`writeReflectance` (source line 1277). -/
def blockStarts (n : ℤ) (step : ℕ) : List ℕ :=
  (List.range ((n.toNat + step - 1) / step)).map (fun i => i * step)

/-- Block loop of `writeReflectance` (source lines 1277-1287), carrying
`(records, startWN, endWN)`: each iteration advances `startWN` by
`startIndex*dv` from its PREVIOUS value, clamps `endWN` to
`v2 + guardWN`, recomputes the block point count, and emits one 24-byte
header record in the `'ddfi'` layout (two 8-byte floats, one 4-byte
float, one 4-byte integer) followed by one single-precision data-vector
record of the reflectances. -/
def wrBlocks (v2g dv c0 c1 c2 : K) : List ℕ → List (Rec K) × K × K → List (Rec K) × K × K
  | [], st => st
  | i :: is, (recs, startWN, _) =>
      let sW := startWN + (i : K) * dv
      let eW0 := sW + (2400 - 1) * dv
      let eW1 := if eW0 > v2g then v2g else eW0
      let nB := pyInt ((eW1 - sW) / dv + 1 / 2) + 1
      let eW := sW + ((nB : K) - 1) * dv
      let refl := (List.range nB.toNat).map
        (fun x : ℕ => genReflectance (sW + (x : K) * dv) c0 c1 c2)
      wrBlocks v2g dv c0 c1 c2 is
        (recs ++ [Rec.header 24 sW eW dv nB, Rec.vec false refl], sW, eW)

/-- Model of `LblObject.writeReflectance(v1, v2, dv, reflCoeff)` (source
lines 1249-1290) as the record stream it writes: a 1056-byte formatted
file-header record, then per block a 24-byte `'ddfi'` panel header and a
single-precision reflectance vector, and finally a 24-byte `'ddfi'`
terminator header with point count `-99` and no data record. -/
def writeReflectance (v1in v2in dvin c0 c1 c2 : K) : List (Rec K) :=
  let maxWN : ℤ := 24000
  let guardWN : K := 4
  let v1 : K := ((pyInt v1in : ℤ) : K)
  let v2 : K := ((pyInt v2in : ℤ) : K)
  let nWN0 : ℤ := pyRound ((v2 - v1 + 2 * guardWN) / dvin) + 1
  let dv : K := if nWN0 > maxWN then (v2 - v1 + 2 * guardWN) / ((maxWN : K) - 1) else dvin
  let nWN : ℤ := if nWN0 > maxWN then pyRound ((v2 - v1 + 2 * guardWN) / dv) + 1 else nWN0
  let startWN := v1 - guardWN
  let endWN0 := startWN + ((nWN : K) - 1) * dv
  match wrBlocks (v2 + guardWN) dv c0 c1 c2 (blockStarts nWN 2400) ([], startWN, endWN0) with
  | (recs, _, endWN) =>
      Rec.raw 1056 :: (recs ++ [Rec.header 24 (endWN + dv) endWN dv (-99)])

end Reflectance

/-- CLAIM C6 (amended) — panels written at the format the reader expects
(header records of the reader's 32-byte header size, data vectors at the
matching precision) DO round-trip: decoding yields wavenumbers
`start_i + k*delta_i` for every point of every panel and the parameter
vectors equal to the originals, for any number of panels.  The writer in
the source, `writeReflectance`, does NOT emit this format: its `'ddfi'`
headers are 24-byte records, which the decoder skips (see the
counterexample), so the round-trip claimed for `writeReflectance` output
fails. -/
theorem panel_roundtrip_matching_format (dbl : Bool) (ps : List (Panel K)) :
    readTape12 dbl 1 (Rec.raw 1056 :: ps.bind (encodePanel dbl)) =
      (ps.bind panelWN, [ps.bind Panel.vals]) :=
  readTape12_encode dbl ps

set_option maxRecDepth 40000 in
/-- CLAIM C6 (counterexample) — the file written by
`writeReflectance(100, 101, 1, (0.2, 0, 0))` contains one panel of ten
reflectance points, but `readTape12` at the matching (single) precision
decodes it to EMPTY arrays: every record the writer emits has a 24-byte
`'ddfi'` header, never the 32-byte header the decoder's skip loop looks
for, so all records are skipped. -/
theorem writeReflectance_decode_empty :
    readTape12 false 1 (writeReflectance (100 : ℚ) 101 1 (1/5) 0 0) = ([], [[]]) ∧
    Rec.vec false (List.replicate 10 ((1 : ℚ)/5)) ∈ writeReflectance (100 : ℚ) 101 1 (1/5) 0 0 := by
  have hw : writeReflectance (100 : ℚ) 101 1 (1/5) 0 0 =
      [Rec.raw 1056, Rec.header 24 96 105 1 10, Rec.vec false (List.replicate 10 ((1 : ℚ)/5)),
        Rec.header 24 106 105 1 (-99)] := by
    norm_num [writeReflectance, wrBlocks, blockStarts, pyInt, pyRound, genReflectance,
      show Int.toNat 10 = 10 from rfl, show List.range 1 = [0] from rfl, Function.comp_def,
      List.length_singleton, List.map_const', List.sum_replicate, smul_eq_mul,
      List.length_range]
  rw [hw]
  constructor
  · rw [readTape12, List.tail_cons, panelLoop_skip, panelLoop_skip, panelLoop_skip,
      panelLoop_nil]
    · rfl
    · norm_num [recLen, headerSize]
    · norm_num [recLen, headerSize, List.length_replicate]
    · norm_num [recLen, headerSize]
  · simp

/-- A value stored in the `rtParameters` dictionary: a number, a boolean
flag, or a list of numbers (the value kinds the orchestrator reads). -/
inductive PVal (K : Type) where
  | num (x : K)
  | flag (b : Bool)
  | vals (xs : List K)
deriving DecidableEq

/-- The `rtParameters` dictionary, as an insertion-ordered association
list with unique keys (Python dict semantics). -/
abbrev Params (K : Type) := List (String × PVal K)

/-- Dictionary lookup. -/
def getP (d : Params K) (key : String) : Option (PVal K) :=
  (d.find? (fun kv => kv.1 == key)).map Prod.snd

/-- Modelled from the spec: `np.interp` — uniform-grid linear resampling
(§4.3(b)) over `(x, f)` pairs assumed ascending in `x`: clamp to the
first value below the range and to the last value above it, and
interpolate linearly inside. -/
def npInterpOne (ps : List (K × K)) (q : K) : K :=
  match ps with
  | [] => 0
  | [(_, f0)] => f0
  | (x0, f0) :: (x1, f1) :: rest =>
      if q ≤ x0 then f0
      else if q ≤ x1 then f0 + (q - x0) * (f1 - f0) / (x1 - x0)
      else npInterpOne ((x1, f1) :: rest) q

/-- `np.interp(x, xp, fp)` over the model: one interpolated value per
query point. -/
def npInterp (x xp fp : List K) : List K :=
  x.map (fun q => npInterpOne (xp.zip fp) q)

/-- One pass's decoded results, as returned by the external solver-run
collaborator (modelled from the spec: the solver invocation and its
decode helper are external to `src/`, so the per-kind arrays are oracle
inputs): wavenumber/value pairs per produced kind, plus the raw
number-density and layer-optical-depth arrays. -/
structure Results (K : Type) where
  opticalDepth : Option (List K × List K) := none
  radiance : Option (List K × List K) := none
  solar : Option (List K × List K) := none
  numberDensity : Option (List K) := none
  layerOpticalDepths : Option (List K) := none
deriving DecidableEq

/-- The `output` dictionary built by `LblObject.run`, one optional entry
per output kind. -/
structure RunOutput (K : Type) where
  waveNumber : Option (List K) := none
  opticalDepth : Option (List K) := none
  radiance : Option (List K) := none
  solarOD : Option (List K) := none
  solarRadiance : Option (List K) := none
  numberDensity : Option (List K) := none
  layerOpticalDepths : Option (List K) := none
deriving DecidableEq

/-- Radiance pass of `run` (source lines 1340-1347): when the solver
produced `radiance`, resample onto the output grid and convert from
per-cm2 to per-m2 by multiplying each value by `1e4`. -/
def radPass (grid : List K) (res : Results K) (radF : Bool) (out : RunOutput K) :
    RunOutput K :=
  match res.radiance with
  | none => out
  | some (wn, r) =>
      let out := if radF then { out with waveNumber := some grid } else out
      { out with radiance := some ((npInterp grid wn r).map (fun v => v * 1e4)) }

/-- Solar passes of `run` (source lines 1349-1411): the solar-path
optical depth is resampled onto the output grid; the solar radiance is
resampled, converted by `1e4` (per-cm2 to per-m2) and then scaled by the
fixed solid-angle factor `6.8e-5`; the wavenumber key is set only when no
upwelling composition will follow. -/
def solarPass (grid : List K) (resOD resSolar : Results K) (upF : Bool)
    (out : RunOutput K) : RunOutput K :=
  let out := match resOD.opticalDepth with
    | some (wn, od) => { out with solarOD := some (npInterp grid wn od) }
    | none => out
  match resSolar.solar with
  | none => out
  | some (wn, s) =>
      let out := if ¬upF then { out with waveNumber := some grid } else out
      let sr := ((npInterp grid wn s).map (fun v => v * 1e4)).map (fun v => v * 6.8e-5)
      { out with solarRadiance := some sr }

/-- Surface-terrain parameter list of the upwelling step (source lines
1416-1419): `rtParameters['surfaceTerrain']` when present, else the
default `[300, 0.8, 0, 0, 0.2/pi, 0, 0]`, where `piv` stands for the
float `math.pi`.  A present but non-list value, on which Python would
raise when sliced, is not modelled and also yields the default. -/
def surfaceTerrainOf (piv : K) (d : Params K) : List K :=
  match getP d "surfaceTerrain" with
  | some (PVal.vals xs) => xs
  | _ => [300, 0.8, 0, 0, 0.2 / piv, 0, 0]

/-- Upwelling composition of `run` (source lines 1413-1438): the surface
reflectance polynomial is evaluated on the output grid from
`surfaceTerrain[4:]`; inside the guarded block the stored solar radiance
is multiplied pointwise by `exp(-opticalDepth)`, then by the reflectance,
then the path radiance is added and the wavenumber key is set.  A missing
`solarRadiance` or `opticalDepth` key raises `KeyError` before any
assignment and leaves the output unchanged; a missing `radiance` key
raises after the first two steps, leaving the partially composed product
stored.  Fewer than three reflectance coefficients make `genReflectance`
raise OUTSIDE the try block (`none`). -/
def upPass (expf : K → K) (piv : K) (grid : List K) (d : Params K) (out : RunOutput K) :
    Option (RunOutput K) :=
  let sp : List K := surfaceTerrainOf piv d
  match sp.drop 4 with
  | c0 :: c1 :: c2 :: _ =>
      let refl := grid.map (fun wn => genReflectance wn c0 c1 c2)
      match out.solarRadiance, out.opticalDepth with
      | some s, some od =>
          let s1 := List.zipWith (fun a b => a * expf (-b)) s od
          let s2 := List.zipWith (fun a b => a * b) s1 refl
          match out.radiance with
          | some r =>
              let s3 := List.zipWith (fun a b => a + b) s2 r
              some { out with solarRadiance := some s3, waveNumber := some grid }
          | none => some { out with solarRadiance := some s2 }
      | _, _ => some out
  | _ => none

section RunModel

variable [FloorRing K]

end RunModel

theorem zipWith_get?_some {α β γ : Type} (f : α → β → γ) :
    ∀ (l1 : List α) (l2 : List β) (i : ℕ) (a : α) (b : β),
      l1.get? i = some a → l2.get? i = some b →
      (List.zipWith f l1 l2).get? i = some (f a b) := by
  intro l1
  induction l1 with
  | nil => intro l2 i a b h1 h2; simp at h1
  | cons x xs ih =>
      intro l2 i a b h1 h2
      cases l2 with
      | nil => simp at h2
      | cons y ys =>
          cases i with
          | zero =>
              simp only [List.get?] at h1 h2
              cases h1; cases h2
              simp [List.zipWith]
          | succ j =>
              simp only [List.get?] at h1 h2
              simpa [List.zipWith] using ih ys j a b h1 h2

/-- Projection used to state the upwelling composition: the `i`-th stored
solar-radiance value of an orchestrator output, when present. -/
def upSolarAt (o : Option (RunOutput K)) (i : ℕ) : Option K :=
  match o with
  | some oo =>
      match oo.solarRadiance with
      | some l => l.get? i
      | none => none
  | none => none

/-- CLAIM C1 — upwelling composition of `run`: at every grid point `i`,
when `solarRadiance`, `opticalDepth` and `radiance` are all present in the
accumulated output and the surface-terrain list supplies at least three
reflectance coefficients, the composed value stored by the upwelling step
is `solarRadiance_i * exp(-opticalDepth_i) * R(wn_i) + radiance_i`, where
`R(wn) = coeff0 + coeff1*wn + coeff2*wn^2` is `genReflectance` at the
grid point's wavenumber. -/
theorem upwelling_composition (expf : K → K) (piv : K) (grid : List K) (d : Params K)
    (out : RunOutput K) (s od r sp tl : List K) (c0 c1 c2 : K) (i : ℕ) (si oi ri wi : K)
    (hs : out.solarRadiance = some s) (hod : out.opticalDepth = some od)
    (hr : out.radiance = some r)
    (hsp : getP d "surfaceTerrain" = some (PVal.vals sp))
    (hdrop : sp.drop 4 = c0 :: c1 :: c2 :: tl)
    (hsi : s.get? i = some si) (hoi : od.get? i = some oi) (hri : r.get? i = some ri)
    (hwi : grid.get? i = some wi) :
    upSolarAt (upPass expf piv grid d out) i =
      some (si * expf (-oi) * genReflectance wi c0 c1 c2 + ri) := by
  have hrefl : (grid.map (fun wn => genReflectance wn c0 c1 c2)).get? i =
      some (genReflectance wi c0 c1 c2) := by
    rw [List.get?_map, hwi]; rfl
  have h1 := zipWith_get?_some (fun a b => a * expf (-b)) s od i si oi hsi hoi
  have h2 := zipWith_get?_some (fun a b : K => a * b)
    (List.zipWith (fun a b => a * expf (-b)) s od)
    (grid.map (fun wn => genReflectance wn c0 c1 c2)) i _ _ h1 hrefl
  have h3 := zipWith_get?_some (fun a b : K => a + b)
    (List.zipWith (fun a b : K => a * b) (List.zipWith (fun a b => a * expf (-b)) s od)
      (grid.map (fun wn => genReflectance wn c0 c1 c2))) r i _ _ h2 hri
  simp only [upPass, surfaceTerrainOf, hsp, hdrop, hs, hod, hr, upSolarAt]
  exact h3

/-- Concrete upwelling input: a one-point grid with `solarRadiance = 10`,
`opticalDepth = 0`, `radiance = 1` accumulated, and constant surface
reflectance `0.2`. -/
def upDemoParams : Params ℝ := [("surfaceTerrain", PVal.vals [300, 0.8, 0, 0, 0.2, 0, 0])]

/-- Accumulated output before the upwelling composition of the witness. -/
def upDemoOut : RunOutput ℝ :=
  { solarRadiance := some [10], opticalDepth := some [0], radiance := some [1] }

/-- Witness for `upwelling_composition`: with `np.exp` taken as the real
exponential, `10 * exp(-0) * 0.2 + 1 = 3.0` exactly. -/
theorem upwelling_composition_witness :
    upSolarAt (upPass Real.exp 3 [1000] upDemoParams upDemoOut) 0 = some 3 := by
  have h := upwelling_composition Real.exp 3 [1000] upDemoParams upDemoOut
    [10] [0] [1] [300, 0.8, 0, 0, 0.2, 0, 0] [] 0.2 0 0 0 10 0 1 1000
    rfl rfl rfl rfl rfl rfl rfl rfl rfl
  rw [h]
  norm_num [genReflectance, Real.exp_zero]

/-- CLAIM C8 — solar irradiance step of `run`: whenever the solar pass
produced a spectrum, the stored `solarRadiance` is the spectrum resampled
onto the output grid with every value scaled by exactly
`6.8e-5 * 1e4` in total (the fixed solid-angle factor and the fixed
per-cm2-to-per-m2 conversion, applied in sequence as literals in the
composition step). -/
theorem solar_scaling (grid : List K) (resOD resSolar : Results K) (upF : Bool)
    (out : RunOutput K) (wn s : List K) (hsol : resSolar.solar = some (wn, s)) :
    (solarPass grid resOD resSolar upF out).solarRadiance =
      some ((npInterp grid wn s).map (fun v => v * (6.8e-5 * 1e4))) := by
  simp only [solarPass, hsol, List.map_map]
  have hf : ((fun v : K => v * 6.8e-5) ∘ fun v : K => v * 1e4) =
      fun v : K => v * (6.8e-5 * 1e4) := by
    funext v
    simp only [Function.comp_apply]
    ring
  rw [hf]

/-- Witness for `solar_scaling`: a flat two-value solar spectrum at value
2 is stored as `2 * 6.8e-5 * 1e4 = 1.36 = 34/25`. -/
theorem solar_scaling_witness :
    (solarPass [(100 : ℚ)] {} { solar := some ([100], [2]) } false {}).solarRadiance =
      some [34/25] := by
  have h := solar_scaling [(100 : ℚ)] {} { solar := some ([100], [2]) } false {} [100] [2] rfl
  rw [h]
  norm_num [npInterp, npInterpOne]

/-- Projection used to state the radiance conversion: the `i`-th stored
radiance value of an orchestrator output, when present. -/
def radAt (o : RunOutput K) (i : ℕ) : Option K :=
  match o.radiance with
  | some l => l.get? i
  | none => none

/-- CLAIM C9 — radiance pass of `run`: at every grid point the stored
`radiance` value is the decoded radiance resampled onto the output grid
and multiplied by `1e4` (per-cm2 to per-m2); the raw decoded values are
never stored. -/
theorem radiance_scaling (grid : List K) (res : Results K) (radF : Bool)
    (out : RunOutput K) (wn r : List K) (i : ℕ) (gi : K)
    (hrad : res.radiance = some (wn, r)) (hgi : grid.get? i = some gi) :
    radAt (radPass grid res radF out) i = some (npInterpOne (wn.zip r) gi * 1e4) := by
  simp only [radPass, hrad, radAt, npInterp, List.map_map]
  rw [List.get?_map, hgi]
  rfl

/-- Witness for `radiance_scaling`: a decoded radiance of 2 at the first
grid point is stored as `2 * 1e4 = 20000`. -/
theorem radiance_scaling_witness :
    radAt (radPass [(100 : ℚ), 101] { radiance := some ([100, 101], [2, 3]) } false {}) 0 =
      some 20000 := by
  have h := radiance_scaling [(100 : ℚ), 101] { radiance := some ([100, 101], [2, 3]) }
    false {} [100, 101] [2, 3] 0 100 rfl rfl
  rw [h]
  norm_num [npInterpOne]

section RunThms

variable [FloorRing K]

end RunThms

section GridThms

variable [FloorRing K]

end GridThms

end LblTools
